import Mathlib

/-!
Verification of `hashmap-entry-ownable` (src/src/lib.rs).

The crate adds one operation to a hash map: `entry_ownable`, which probes the
map once with a *borrowed* key `q : Q` and returns an `Entry` cursor; terminal
operations (`or_insert`, `or_insert_with`, `or_default`) materialize an owned
key `K` from the borrowed one (via `ToOwned`, modelled by `own : Q → K`) only
on the vacant path, and `and_modify` mutates an occupied slot in place.

Shallow embedding choices:
* the `HashMap<K, V, S>` contents are modelled as an association list
  `Map K V = List (K × V)`; hashing and bucket layout are owned by the external
  table and are irrelevant to the observable contents, so lookup is modelled by
  the first entry whose owned key borrows to the probe key (exactly the
  equality semantics `raw_entry_mut().from_key` uses after the hash narrows
  the bucket);
* the `Borrow` relation is modelled as a function `bor : K → Q` and `ToOwned`
  as `own : Q → K`; the crate documents the contract that hashing/equality of
  the borrowed form agrees with the owned form, whose observable part here is
  `bor (own q) = q`;
* mutable references become explicit state passing: a terminal operation
  returns the value the returned reference points at, together with the
  updated map contents;
* call-counting claims use `_counted` variants that are line-by-line
  transcriptions of the same Rust bodies, additionally reporting how many
  times `to_owned`, the factory or the mutator was invoked on the path taken.
-/

namespace HashmapEntryOwnable

/-- The observable contents of a `HashMap<K, V, S>`: an association list of
owned keys and values. -/
abbrev Map (K V : Type) := List (K × V)

variable {K Q V : Type} [DecidableEq Q]

/-- Lookup by a borrowed key: the value of the first entry whose owned key
borrows to `q`.  This is the equality semantics of both a plain
`HashMap::get(q)` and of the single probe `raw_entry_mut().from_key(q)`
performed by `entry_ownable` (lib.rs line 59). -/
def rawLookup (bor : K → Q) : Map K V → Q → Option V
  | [], _ => none
  | p :: rest, q => if bor p.1 = q then some p.2 else rawLookup bor rest q

/-- In-place mutation of the slot found by the probe: rewrite the value of the
first entry whose owned key borrows to `q`, leaving everything else (including
the stored owned key) untouched.  This is what writing through the occupied
slot's mutable reference (`e.get_mut()` / `e.into_mut()`) does. -/
def modifyFirst (bor : K → Q) : Map K V → Q → (V → V) → Map K V
  | [], _, _ => []
  | p :: rest, q, f =>
    if bor p.1 = q then (p.1, f p.2) :: rest else p :: modifyFirst bor rest q f

/-- The `Entry<'a, 'q, K, Q, V, S>` cursor (lib.rs lines 64-71): it retains the
borrowed key and the exclusively borrowed map in which the single probe took
place.  The occupied/vacant classification of the probe is `rawLookup` of the
retained key in the retained map: the cursor holds the map exclusively, so
nothing can change the classification between creation and the terminal
operation. -/
structure Entry (K Q V : Type) where
  key : Q
  map : Map K V

/-- The occupied/vacant classification of the cursor's single probe
(`RawEntryMut::Occupied` vs `RawEntryMut::Vacant`). -/
def Entry.isOccupied (bor : K → Q) (e : Entry K Q V) : Bool :=
  (rawLookup bor e.map e.key).isSome

/-- `EntryAPI::entry_ownable` (lib.rs lines 56-61): wrap the borrowed key and
the probe result into a cursor.  No mutation, no insertion, no owned-key
materialization happens here (the body mentions no `to_owned` at all). -/
def entry_ownable (m : Map K V) (q : Q) : Entry K Q V :=
  ⟨q, m⟩

/-- `Entry::or_insert` (lib.rs lines 99-106).  Occupied: return the existing
value, the map is untouched and `default` is discarded.  Vacant: materialize
the owned key with `to_owned` and insert the pair with the precomputed hash.
Returns (value behind the returned mutable reference, resulting contents). -/
def Entry.or_insert (bor : K → Q) (own : Q → K) (e : Entry K Q V) (default : V) :
    V × Map K V :=
  match rawLookup bor e.map e.key with
  | some w => (w, e.map)
  | none => (default, e.map ++ [(own e.key, default)])

/-- `Entry::or_insert_with` (lib.rs lines 127-134): like `or_insert` but the
value is produced by invoking `default ()` on the vacant path only. -/
def Entry.or_insert_with (bor : K → Q) (own : Q → K) (e : Entry K Q V)
    (default : Unit → V) : V × Map K V :=
  match rawLookup bor e.map e.key with
  | some w => (w, e.map)
  | none =>
    let v := default ()
    (v, e.map ++ [(own e.key, v)])

/-- `Entry::and_modify` (lib.rs lines 160-170): if the probe was occupied,
apply `f` to the value in place through `e.get_mut()`; if vacant, do nothing.
Either way hand the cursor back. -/
def Entry.and_modify (bor : K → Q) (e : Entry K Q V) (f : V → V) : Entry K Q V :=
  match rawLookup bor e.map e.key with
  | some _ => ⟨e.key, modifyFirst bor e.map e.key f⟩
  | none => e

/-- `Entry::or_default` (lib.rs lines 197-204): like `or_insert` with the value
type's canonical default (`Default::default()`, modelled by Lean's canonical
`default`; for `Option α` that is `none`, as in Rust). -/
def Entry.or_default (bor : K → Q) (own : Q → K) [Inhabited V] (e : Entry K Q V) :
    V × Map K V :=
  match rawLookup bor e.map e.key with
  | some w => (w, e.map)
  | none => (default, e.map ++ [(own e.key, default)])

/-- Instrumented transcription of `Entry::or_insert_with` (lib.rs 127-134).
Besides the result it reports `(number of to_owned calls, number of factory
invocations)` on the path taken: the occupied arm (line 129-130) contains
neither call; the vacant arm (line 131-132) calls each exactly once. -/
def Entry.or_insert_with_counted (bor : K → Q) (own : Q → K) (e : Entry K Q V)
    (default : Unit → V) : (V × Map K V) × Nat × Nat :=
  match rawLookup bor e.map e.key with
  | some w => ((w, e.map), 0, 0)
  | none =>
    let v := default ()
    ((v, e.map ++ [(own e.key, v)]), 1, 1)

/-- Instrumented transcription of `Entry::and_modify` (lib.rs 160-170): also
reports how many times the mutator `f` was invoked (once on the occupied arm,
line 164-165; zero times on the vacant arm, line 166-167). -/
def Entry.and_modify_counted (bor : K → Q) (e : Entry K Q V) (f : V → V) :
    Entry K Q V × Nat :=
  match rawLookup bor e.map e.key with
  | some _ => (⟨e.key, modifyFirst bor e.map e.key f⟩, 1)
  | none => (e, 0)

/-- Instrumented transcription of `EntryAPI::entry_ownable` (lib.rs 56-61):
also reports the number of to_owned calls its body performs, which is zero
(the body constructs the cursor from the borrowed key and the raw probe and
contains no `to_owned`). -/
def entry_ownable_counted (m : Map K V) (q : Q) : Entry K Q V × Nat :=
  (⟨q, m⟩, 0)

/-! ### Helper lemmas -/

theorem rawLookup_append (bor : K → Q) (m₁ m₂ : Map K V) (q : Q) :
    rawLookup bor (m₁ ++ m₂) q =
      match rawLookup bor m₁ q with
      | some v => some v
      | none => rawLookup bor m₂ q := by
  induction m₁ with
  | nil => simp [rawLookup]
  | cons p rest ih =>
    simp only [List.cons_append, rawLookup]
    by_cases h : bor p.1 = q <;> simp [h, ih]

theorem rawLookup_modifyFirst (bor : K → Q) (m : Map K V) (q : Q) (f : V → V) :
    rawLookup bor (modifyFirst bor m q f) q = Option.map f (rawLookup bor m q) := by
  induction m with
  | nil => simp [rawLookup, modifyFirst]
  | cons p rest ih =>
    by_cases h : bor p.1 = q <;> simp [rawLookup, modifyFirst, h, ih]

theorem rawLookup_singleton (bor : K → Q) (k : K) (v : V) (q : Q) :
    rawLookup bor [(k, v)] q = if bor k = q then some v else none := by
  simp [rawLookup]

theorem rawLookup_append_single_ne (bor : K → Q) (m : Map K V) (k : K) (v : V)
    (q' : Q) (h : bor k ≠ q') :
    rawLookup bor (m ++ [(k, v)]) q' = rawLookup bor m q' := by
  rw [rawLookup_append]
  cases rawLookup bor m q' <;> simp [rawLookup, h]

/-- The instrumentation does not change what `or_insert_with` computes. -/
theorem or_insert_with_counted_fst (bor : K → Q) (own : Q → K) (e : Entry K Q V)
    (factory : Unit → V) :
    (e.or_insert_with_counted bor own factory).1 = e.or_insert_with bor own factory := by
  unfold Entry.or_insert_with_counted Entry.or_insert_with
  cases h : rawLookup bor e.map e.key <;> simp [h]

/-- The instrumentation does not change what `and_modify` computes. -/
theorem and_modify_counted_fst (bor : K → Q) (e : Entry K Q V) (f : V → V) :
    (e.and_modify_counted bor f).1 = e.and_modify bor f := by
  unfold Entry.and_modify_counted Entry.and_modify
  cases h : rawLookup bor e.map e.key <;> simp [h]

/-! ### Claims -/

/-- Claim C1: for every map and every key already present in it with stored
value `w`, `entry_ownable(key)` followed by `or_insert(v)` returns the
previously stored value `w` and leaves the map, hence the stored value for
that key, unchanged (still `w`, never `v`). -/
theorem or_insert_on_occupied (bor : K → Q) (own : Q → K)
    (m : Map K V) (q : Q) (v w : V) (h : rawLookup bor m q = some w) :
    (entry_ownable m q).or_insert bor own v = (w, m) ∧
    rawLookup bor ((entry_ownable m q).or_insert bor own v).2 q = some w := by
  simp [entry_ownable, Entry.or_insert, h]

/-- Witness for C1 at the concrete map `[(1, 5)]`, key `1`, default `7`. -/
theorem or_insert_on_occupied_witness :
    (entry_ownable ([(1, 5)] : Map Nat Nat) 1).or_insert id id 7 = (5, [(1, 5)]) ∧
    rawLookup id ((entry_ownable ([(1, 5)] : Map Nat Nat) 1).or_insert id id 7).2 1 =
      some 5 :=
  or_insert_on_occupied id id [(1, 5)] 1 7 5 (by decide)

/-- Claim C2: for every map and key `k` absent from it, after
`entry_ownable(k).or_insert(v)` a plain lookup of `k` returns exactly `v`
(and the returned reference holds `v`).  Uses the crate's documented
contract that equality on the borrowed form agrees with the owned form,
here `bor (own q) = q`. -/
theorem or_insert_on_vacant (bor : K → Q) (own : Q → K)
    (m : Map K V) (q : Q) (v : V)
    (h1 : rawLookup bor m q = none) (h2 : bor (own q) = q) :
    ((entry_ownable m q).or_insert bor own v).1 = v ∧
    rawLookup bor ((entry_ownable m q).or_insert bor own v).2 q = some v := by
  constructor
  · simp [entry_ownable, Entry.or_insert, h1]
  · simp [entry_ownable, Entry.or_insert, h1, rawLookup_append, rawLookup_singleton, h2]

/-- Witness for C2 at the empty map, key `2`, value `9`. -/
theorem or_insert_on_vacant_witness :
    ((entry_ownable ([] : Map Nat Nat) 2).or_insert id id 9).1 = 9 ∧
    rawLookup id ((entry_ownable ([] : Map Nat Nat) 2).or_insert id id 9).2 2 = some 9 :=
  or_insert_on_vacant id id [] 2 9 (by decide) (by decide)

/-- Claim C3: `entry_ownable(key).or_insert_with(factory)` performs zero
owned-key materializations and zero factory invocations when the key is
present, and exactly one of each when the key is absent. -/
theorem or_insert_with_counts (bor : K → Q) (own : Q → K)
    (m : Map K V) (q : Q) (factory : Unit → V) :
    ((entry_ownable m q).or_insert_with_counted bor own factory).2 =
      if (rawLookup bor m q).isSome then (0, 0) else (1, 1) := by
  cases h : rawLookup bor m q <;>
    simp [entry_ownable, Entry.or_insert_with_counted, h]

/-- Claim C4: `entry_ownable(key).and_modify(f).or_insert(v)` — on an absent
key it inserts `v` and never invokes `f` (mutator count 0); on a present key
holding `w` it applies `f` exactly once (mutator count 1) to the value in
place and does not insert `v`: the result is the in-place modified map and
the returned reference holds `f w`. -/
theorem and_modify_or_insert_chain (bor : K → Q) (own : Q → K)
    (m : Map K V) (q : Q) (f : V → V) (v : V) :
    ((entry_ownable m q).and_modify_counted bor f).2 =
      (match rawLookup bor m q with
       | none => 0
       | some _ => 1) ∧
    Entry.or_insert bor own ((entry_ownable m q).and_modify_counted bor f).1 v =
      (match rawLookup bor m q with
       | none => (v, m ++ [(own q, v)])
       | some w => (f w, modifyFirst bor m q f)) := by
  cases h : rawLookup bor m q with
  | none => simp [entry_ownable, Entry.and_modify_counted, Entry.or_insert, h]
  | some w =>
    have hl : rawLookup bor (modifyFirst bor m q f) q = some (f w) := by
      rw [rawLookup_modifyFirst, h]; rfl
    simp [entry_ownable, Entry.and_modify_counted, Entry.or_insert, h, hl]

/-- Claim C5: `entry_ownable(key)` itself mutates nothing, inserts nothing and
materializes no owned key: the cursor retains the borrowed key and exactly the
original map, so dropping it without a terminal operation leaves every
lookup unchanged. -/
theorem entry_ownable_no_effect (m : Map K V) (q : Q) :
    (entry_ownable m q).map = m ∧
    (entry_ownable m q).key = q ∧
    (entry_ownable_counted m q).2 = 0 ∧
    ∀ (bor : K → Q) (q' : Q),
      rawLookup bor (entry_ownable m q).map q' = rawLookup bor m q' :=
  ⟨rfl, rfl, rfl, fun _ _ => rfl⟩

/-- Claim C6: `and_modify(f)` hands back a cursor with the same retained key
(hence the same hash under any hash function) and the same Occupied/Vacant
classification; it never transitions between the states, and applies `f`
exactly once when Occupied and never when Vacant. -/
theorem and_modify_preserves_state (bor : K → Q) (e : Entry K Q V) (f : V → V) :
    (e.and_modify bor f).key = e.key ∧
    (e.and_modify bor f).isOccupied bor = e.isOccupied bor ∧
    (∀ hashFn : Q → Nat, hashFn (e.and_modify bor f).key = hashFn e.key) ∧
    (e.and_modify_counted bor f).2 = (if e.isOccupied bor then 1 else 0) ∧
    (e.and_modify_counted bor f).1 = e.and_modify bor f := by
  cases h : rawLookup bor e.map e.key with
  | none =>
    simp [Entry.and_modify, Entry.and_modify_counted, Entry.isOccupied, h]
  | some w =>
    have hl : rawLookup bor (modifyFirst bor e.map e.key f) e.key = some (f w) := by
      rw [rawLookup_modifyFirst, h]; rfl
    simp [Entry.and_modify, Entry.and_modify_counted, Entry.isOccupied, h, hl]

/-- Claim C7: on an empty map with values of type `Option Int`,
`entry_ownable(k).or_default()` for a fresh key stores and returns the
canonical empty state `none`, which is not the numeric zero `some 0`. -/
theorem or_default_canonical_empty :
    (entry_ownable ([] : Map String (Option Int)) "k").or_default id id =
      ((none : Option Int), [("k", (none : Option Int))]) ∧
    (none : Option Int) ≠ some 0 :=
  ⟨rfl, by decide⟩

/-- One step of the word-count scenario: `or_insert(0)` through
`entry_ownable`, then `+= 1` through the returned mutable reference. -/
def countStep (m : Map String Nat) (k : String) : Map String Nat :=
  modifyFirst id ((entry_ownable m k).or_insert id id 0).2 k (fun c => c + 1)

/-- Claim C8: starting from the empty map, processing
`["a","b","a","a","b","c"]` with `entry_ownable(key).or_insert(0)` followed by
an increment yields `{"a": 3, "b": 2, "c": 1}`, and `"z"` is absent. -/
theorem end_to_end_word_count :
    (["a", "b", "a", "a", "b", "c"].foldl countStep []) =
      [("a", 3), ("b", 2), ("c", 1)] ∧
    rawLookup id (["a", "b", "a", "a", "b", "c"].foldl countStep []) "a" = some 3 ∧
    rawLookup id (["a", "b", "a", "a", "b", "c"].foldl countStep []) "b" = some 2 ∧
    rawLookup id (["a", "b", "a", "a", "b", "c"].foldl countStep []) "c" = some 1 ∧
    rawLookup id (["a", "b", "a", "a", "b", "c"].foldl countStep []) "z" = none := by
  decide

/-- Claim C9: `or_default()` is behaviorally identical to
`or_insert_with(factory)` with a factory producing the canonical default:
same returned value, same resulting contents, for every cursor. -/
theorem or_default_eq_or_insert_with (bor : K → Q) (own : Q → K) [Inhabited V]
    (e : Entry K Q V) :
    e.or_default bor own = e.or_insert_with bor own (fun _ => (default : V)) := by
  unfold Entry.or_default Entry.or_insert_with
  cases h : rawLookup bor e.map e.key <;> simp [h]

/-- Claim C10: every terminal operation (`or_insert`, `or_insert_with`,
`or_default`) on `entry_ownable(q)` leaves the mapping stored for every other
key `q'` (presence and value) exactly as it was.  Uses the borrowed/owned
equality contract `bor (own q) = q`. -/
theorem terminal_ops_frame (bor : K → Q) (own : Q → K) [Inhabited V]
    (m : Map K V) (q q' : Q) (v : V) (factory : Unit → V)
    (h1 : q' ≠ q) (h2 : bor (own q) = q) :
    rawLookup bor ((entry_ownable m q).or_insert bor own v).2 q' =
      rawLookup bor m q' ∧
    rawLookup bor ((entry_ownable m q).or_insert_with bor own factory).2 q' =
      rawLookup bor m q' ∧
    rawLookup bor ((entry_ownable m q).or_default bor own).2 q' =
      rawLookup bor m q' := by
  have hne : bor (own q) ≠ q' := by rw [h2]; exact fun hc => h1 hc.symm
  refine ⟨?_, ?_, ?_⟩ <;>
    cases h : rawLookup bor m q <;>
      simp [entry_ownable, Entry.or_insert, Entry.or_insert_with, Entry.or_default,
        h, rawLookup_append_single_ne bor m _ _ q' hne]

/-- Witness for C10 at the map `[(2, 7)]`, probed key `1`, other key `2`. -/
theorem terminal_ops_frame_witness :
    rawLookup id ((entry_ownable ([(2, 7)] : Map Nat Nat) 1).or_insert id id 9).2 2 =
      rawLookup id [(2, 7)] 2 ∧
    rawLookup id
        ((entry_ownable ([(2, 7)] : Map Nat Nat) 1).or_insert_with id id (fun _ => 4)).2 2 =
      rawLookup id [(2, 7)] 2 ∧
    rawLookup id ((entry_ownable ([(2, 7)] : Map Nat Nat) 1).or_default id id).2 2 =
      rawLookup id [(2, 7)] 2 :=
  terminal_ops_frame id id [(2, 7)] 1 2 9 (fun _ => 4) (by decide) (by decide)

end HashmapEntryOwnable
